import Mathlib

/-!
Shallow embedding of `src/earthquake_app.py`, an earthquake dashboard.

The data path of the script is:
  * `get_earthquake_data` fetches a geojson feed, and for each feature with a
    non-null magnitude builds a record with fields
    `lat`, `lon`, `mag`, `place`, `time` (a minute-precision formatted string)
    and `radius` (`20000 * 1.5 ** (mag - 4)`);
    on any exception it shows an error message and returns an empty table.
  * `filtered_df = df[df['mag'] >= min_mag]` filters by the slider threshold.
  * `hourly_counts` groups the filtered rows by the hour component of the
    parsed `time` string and counts occurrences, sorted by hour.

Magnitudes, coordinates and thresholds are modelled as rationals, the
visual radius (a float power with non-integral exponent) as a real number,
and the epoch-millisecond event time as a natural number.
-/

/-- Raw feed feature: `properties.mag` (nullable), `geometry.coordinates`
(a pair, longitude first and latitude second), `properties.place` and
`properties.time` in epoch milliseconds. -/
structure Feature where
  mag : Option ℚ
  coordinates : ℚ × ℚ
  place : String
  time : ℕ

/-- One normalized earthquake record, one row of the dataframe built by
`get_earthquake_data`. -/
structure Event where
  lat : ℚ
  lon : ℚ
  mag : ℚ
  place : String
  time : String
  radius : ℝ

/-- Decimal digit character of `n % 10`. -/
def digitChar (n : ℕ) : Char := Char.ofNat (48 + n % 10)

/-- Two-digit zero-padded decimal rendering (`%m`, `%d`, `%H`, `%M`). -/
def pad2 (n : ℕ) : List Char := [digitChar (n / 10), digitChar n]

/-- Four-digit zero-padded decimal rendering (`%Y`). -/
def pad4 (n : ℕ) : List Char :=
  [digitChar (n / 1000), digitChar (n / 100), digitChar (n / 10), digitChar n]

/-- Gregorian civil date `(year, month, day)` from a count of days since the
epoch 1970-01-01, the standard days-to-civil conversion used when rendering a
UTC timestamp. -/
def civilFromDays (z0 : ℕ) : ℕ × ℕ × ℕ :=
  let z := z0 + 719468
  let era := z / 146097
  let doe := z % 146097
  let yoe := (doe - doe / 1460 + doe / 36524 - doe / 146096) / 365
  let doy := doe - (365 * yoe + yoe / 4 - yoe / 100)
  let mp := (5 * doy + 2) / 153
  let d := doy - (153 * mp + 2) / 5 + 1
  let m := if mp < 10 then mp + 3 else mp - 9
  let y := yoe + era * 400 + (if m ≤ 2 then 1 else 0)
  (y, m, d)

/-- Render a UTC time, given in whole minutes since the epoch, in the fixed
pattern `%Y-%m-%d %H:%M`. -/
def formatFromMinutes (tm : ℕ) : String :=
  let minute := tm % 60
  let totalHours := tm / 60
  let hour := totalHours % 24
  let days := totalHours / 24
  let c := civilFromDays days
  ⟨pad4 c.1 ++ '-' :: pad2 c.2.1 ++ '-' :: pad2 c.2.2 ++
    ' ' :: pad2 hour ++ ':' :: pad2 minute⟩

/-- Model of `pd.to_datetime(t, unit='ms').strftime('%Y-%m-%d %H:%M')`:
the epoch-millisecond time is truncated to whole minutes and rendered as a
fixed-pattern UTC string; seconds and milliseconds are discarded. -/
def formatTime (ms : ℕ) : String := formatFromMinutes (ms / 60000)

/-- The visual radius computed at ingestion: `20000 * (1.5 ** (mag - 4))`. -/
noncomputable def visual_radius (m : ℚ) : ℝ :=
  20000 * (1.5 : ℝ) ^ ((m : ℝ) - 4)

/-- One row appended by the parsing loop of `get_earthquake_data` for a
feature `item` whose magnitude is the non-null value `m`:
`lat` is `coordinates[1]`, `lon` is `coordinates[0]`, and `radius` is
precomputed from the magnitude alone. -/
noncomputable def parseFeature (item : Feature) (m : ℚ) : Event :=
  { lat := item.coordinates.2
    lon := item.coordinates.1
    mag := m
    place := item.place
    time := formatTime item.time
    radius := visual_radius m }

/-- The parsing loop of `get_earthquake_data`: walk the `features` list and
append one parsed row per feature whose magnitude is not null. -/
noncomputable def parsed_data : List Feature → List Event
  | [] => []
  | item :: rest =>
    match item.mag with
    | none => parsed_data rest
    | some m => parseFeature item m :: parsed_data rest

/-- A decoded JSON document body: it may or may not carry a `features` array
of feature records; `json_data['features']` raises `KeyError` when absent. -/
structure JsonDoc where
  features : Option (List Feature)

/-- Outcome of `requests.get(url, timeout=10)` followed by
`response.json()`: either the request itself raised (connection error or
timeout), or a response with some HTTP status arrived and its body either
failed to decode as JSON or decoded to a document. The status code is part
of the response but `get_earthquake_data` never consults it (there is no
`raise_for_status` call). -/
inductive HttpOutcome where
  | requestRaised (msg : String)
  | resp (status : ℕ) (body : Except String JsonDoc)

/-- The exception text interpolated into the `st.error` message. -/
def errorDetail : HttpOutcome → String
  | .requestRaised msg => msg
  | .resp _ (.error msg) => msg
  | .resp _ (.ok _) => "KeyError: features"

/-- Model of `get_earthquake_data`: given the outcome of the HTTP fetch and
body decode, either return the parsed feature table with no error shown, or
— when any step inside the `try` block raised — show an error message and
return an empty table. The second component is the message passed to
`st.error`, if any. -/
noncomputable def get_earthquake_data
    (o : HttpOutcome) : List Event × Option String :=
  match o with
  | .requestRaised msg =>
      ([], some ("数据获取失败，请检查网络: " ++ msg))
  | .resp _ (.error msg) =>
      ([], some ("数据获取失败，请检查网络: " ++ msg))
  | .resp _ (.ok doc) =>
      match doc.features with
      | none => ([], some ("数据获取失败，请检查网络: " ++ "KeyError: features"))
      | some features => (parsed_data features, none)

/-- An outcome on which the body of the `try` block of `get_earthquake_data`
raises an exception: the request raised, the body was not valid JSON, or the
decoded document has no `features` key. The HTTP status is irrelevant. -/
def raisesException : HttpOutcome → Prop
  | .requestRaised _ => True
  | .resp _ (.error _) => True
  | .resp _ (.ok doc) => doc.features = none

/-- The filter step `filtered_df = df[df['mag'] >= min_mag]`. -/
def filtered_df (df : List Event) (min_mag : ℚ) : List Event :=
  df.filter (fun e => decide (min_mag ≤ e.mag))

/-- Hour component recovered by re-parsing a `%Y-%m-%d %H:%M` string, as
`pd.to_datetime(filtered_df['time']).dt.hour` does: the hour digits are the
characters at positions 11 and 12. -/
def hourFromTimeString (s : String) : ℕ :=
  match (s.data.drop 11).take 2 with
  | [c1, c2] => 10 * (c1.toNat - 48) + (c2.toNat - 48)
  | _ => 0

/-- The derived `hour` column of one row. -/
def hourOfEvent (e : Event) : ℕ := hourFromTimeString e.time

/-- Model of `filtered_df['hour'].value_counts().sort_index()`: for each hour
of the day that occurs in the table, the pair of the hour and its number of
occurrences, in ascending hour order. -/
def hourly_counts (df : List Event) : List (ℕ × ℕ) :=
  (List.range 24).filterMap (fun h =>
    if (df.filter (fun e => decide (hourOfEvent e = h))).length = 0 then none
    else some (h, (df.filter (fun e => decide (hourOfEvent e = h))).length))

/-! ## Helper lemmas -/

/-- Value of a rendered decimal digit character. -/
theorem digitChar_toNat (k : ℕ) : (digitChar k).toNat = 48 + k % 10 := by
  have h : k % 10 < 10 := Nat.mod_lt _ (by norm_num)
  have hd : ∀ j < 10, (Char.ofNat (48 + j)).toNat = 48 + j := by decide
  simpa [digitChar] using hd (k % 10) h

/-- Re-parsing the hour digits of a rendered minute timestamp recovers the
hour-of-day of the rendered time. -/
theorem hour_roundTrip (tm : ℕ) :
    hourFromTimeString (formatFromMinutes tm) = tm / 60 % 24 := by
  have h24 : tm / 60 % 24 < 24 := Nat.mod_lt _ (by norm_num)
  simp only [hourFromTimeString, formatFromMinutes, pad4, pad2]
  simp only [List.cons_append, List.nil_append, List.drop, List.take]
  simp only [digitChar_toNat]
  omega

/-- Every row of the parsed table is the parse of some input feature whose
magnitude is non-null. -/
theorem mem_parsed_data {fs : List Feature} {e : Event} (he : e ∈ parsed_data fs) :
    ∃ f ∈ fs, ∃ m, f.mag = some m ∧ e = parseFeature f m := by
  induction fs with
  | nil => simp [parsed_data] at he
  | cons f rest ih =>
    cases hm : f.mag with
    | none =>
      rw [parsed_data, hm] at he
      obtain ⟨g, hg, m, h1, h2⟩ := ih he
      exact ⟨g, List.mem_cons_of_mem _ hg, m, h1, h2⟩
    | some m =>
      rw [parsed_data, hm] at he
      rcases List.mem_cons.mp he with h | h
      · exact ⟨f, List.mem_cons_self f rest, m, hm, h⟩
      · obtain ⟨g, hg, m', h1, h2⟩ := ih h
        exact ⟨g, List.mem_cons_of_mem _ hg, m', h1, h2⟩

/-- A sample feature with magnitude 5 at longitude 10, latitude 20. -/
def featA : Feature := ⟨some 5, (10, 20), "A", 1760000000000⟩

/-- A sample feature with magnitude 8. -/
def featB : Feature := ⟨some 8, (30, 40), "B", 1760000000000⟩

/-- A sample feature with a null magnitude. -/
def featN : Feature := ⟨none, (50, 60), "N", 1760000000000⟩

/-- The parsed row of `featA`. -/
noncomputable def evA : Event := parseFeature featA 5

/-- The parsed row of `featB`. -/
noncomputable def evB : Event := parseFeature featB 8

/-! ## Claim theorems -/

/-- C1: for every event collection and threshold `T`, `filtered_df` returns
exactly the events with magnitude at least `T` (membership is equivalent to
source membership plus `T ≤ mag`), and when every magnitude is strictly
below `T` the result is empty. -/
theorem filtered_df_exact (df : List Event) (T : ℚ) :
    (∀ e : Event, e ∈ filtered_df df T ↔ e ∈ df ∧ T ≤ e.mag) ∧
    ((∀ e ∈ df, e.mag < T) → filtered_df df T = []) := by
  constructor
  · intro e
    simp [filtered_df, List.mem_filter]
  · intro h
    rw [filtered_df, List.filter_eq_nil_iff]
    intro e he
    simp only [decide_eq_true_eq, not_le]
    exact h e he

/-- Witness for `filtered_df_exact`: at threshold 4.5 membership in the
filtered table of two sample rows is as characterized, and threshold 8.1 on
a table whose single magnitude is 8 yields the empty table. -/
theorem filtered_df_exact_witness :
    (evA ∈ filtered_df [evA, evB] (9/2) ↔ evA ∈ [evA, evB] ∧ (9/2 : ℚ) ≤ evA.mag) ∧
    filtered_df [evB] (81/10) = [] :=
  ⟨(filtered_df_exact [evA, evB] (9/2)).1 evA,
   (filtered_df_exact [evB] (81/10)).2 (by
     intro e he
     rw [List.mem_singleton] at he
     subst he
     show (8 : ℚ) < 81 / 10
     norm_num)⟩

/-- C10: filtering is antitone in the threshold: raising the threshold can
only shrink the filtered set. -/
theorem filtered_df_antitone (df : List Event) (T1 T2 : ℚ) (h : T1 ≤ T2) :
    filtered_df df T2 ⊆ filtered_df df T1 := by
  intro e he
  simp only [filtered_df, List.mem_filter, decide_eq_true_eq] at he ⊢
  exact ⟨he.1, le_trans h he.2⟩

/-- Witness for `filtered_df_antitone` at thresholds 3 and 5. -/
theorem filtered_df_antitone_witness :
    filtered_df [evA, evB] 5 ⊆ filtered_df [evA, evB] 3 :=
  filtered_df_antitone [evA, evB] 3 5 (by norm_num)

/-- C2: the normalizer ignores features with a null magnitude (the parsed
table of a feature list equals that of the list with null-magnitude features
removed), and every materialized row's magnitude is the non-null magnitude
of some input feature. -/
theorem parsed_data_drops_null_mag :
    (∀ fs : List Feature,
      parsed_data fs = parsed_data (fs.filter (fun f => f.mag.isSome))) ∧
    (∀ (fs : List Feature) (e : Event), e ∈ parsed_data fs →
      ∃ f ∈ fs, f.mag = some e.mag) := by
  constructor
  · intro fs
    induction fs with
    | nil => rfl
    | cons f rest ih =>
      cases hm : f.mag with
      | none => simp [parsed_data, hm, List.filter_cons, ih]
      | some m => simp [parsed_data, hm, List.filter_cons, ih]
  · intro fs e he
    obtain ⟨f, hf, m, h1, h2⟩ := mem_parsed_data he
    subst h2
    exact ⟨f, hf, h1⟩

/-- Witness for `parsed_data_drops_null_mag`: the row parsed from the list
`[featN, featA]` (whose first feature has null magnitude) gets its magnitude
from `featA`. -/
theorem parsed_data_drops_null_mag_witness :
    ∃ f ∈ [featN, featA], f.mag = some evA.mag :=
  parsed_data_drops_null_mag.2 [featN, featA] evA
    (by show evA ∈ [evA]; exact List.mem_singleton.mpr rfl)

/-- C3: every parsed row's precomputed radius is `20000 * 1.5 ^ (mag - 4)`
as a function of its own magnitude alone; magnitude 4 maps to the baseline
radius 20000, and each added unit of magnitude multiplies the radius
by 1.5. -/
theorem parsed_data_radius_formula :
    (∀ (fs : List Feature) (e : Event), e ∈ parsed_data fs →
      e.radius = 20000 * (1.5 : ℝ) ^ ((e.mag : ℝ) - 4)) ∧
    visual_radius 4 = 20000 ∧
    (∀ m : ℚ, visual_radius (m + 1) = 1.5 * visual_radius m) := by
  refine ⟨?_, ?_, ?_⟩
  · intro fs e he
    obtain ⟨f, _, m, _, h2⟩ := mem_parsed_data he
    subst h2
    simp [parseFeature, visual_radius]
  · have h0 : ((4 : ℚ) : ℝ) - 4 = 0 := by norm_num
    rw [visual_radius, h0, Real.rpow_zero, mul_one]
  · intro m
    rw [visual_radius, visual_radius]
    have h : ((m + 1 : ℚ) : ℝ) - 4 = ((m : ℝ) - 4) + 1 := by push_cast; ring
    rw [h, Real.rpow_add (by norm_num), Real.rpow_one]
    ring

/-- Witness for `parsed_data_radius_formula`: the radius of the row parsed
from `featA` obeys the formula. -/
theorem parsed_data_radius_formula_witness :
    evA.radius = 20000 * (1.5 : ℝ) ^ ((evA.mag : ℝ) - 4) :=
  parsed_data_radius_formula.1 [featA] evA
    (by show evA ∈ [evA]; exact List.mem_singleton.mpr rfl)

/-- C4: every parsed row takes its longitude from the first and its latitude
from the second component of the source feature's coordinate pair; in
particular coordinates `(10, 20)` yield longitude 10 and latitude 20. -/
theorem parsed_data_coordinates_order :
    (∀ (fs : List Feature) (e : Event), e ∈ parsed_data fs →
      ∃ f ∈ fs, e.lon = f.coordinates.1 ∧ e.lat = f.coordinates.2) ∧
    (∀ (f : Feature) (m : ℚ), f.coordinates = (10, 20) → f.mag = some m →
      ∀ e ∈ parsed_data [f], e.lon = 10 ∧ e.lat = 20) := by
  constructor
  · intro fs e he
    obtain ⟨f, hf, m, _, h2⟩ := mem_parsed_data he
    subst h2
    exact ⟨f, hf, rfl, rfl⟩
  · intro f m hc hm e he
    rw [parsed_data, hm] at he
    have h0 : parsed_data ([] : List Feature) = [] := rfl
    rw [h0, List.mem_singleton] at he
    subst he
    constructor
    · show f.coordinates.1 = 10
      rw [hc]
    · show f.coordinates.2 = 20
      rw [hc]

/-- Witness for `parsed_data_coordinates_order`: the row parsed from `featA`
(coordinates `(10, 20)`) has longitude 10 and latitude 20. -/
theorem parsed_data_coordinates_order_witness : evA.lon = 10 ∧ evA.lat = 20 :=
  parsed_data_coordinates_order.2 featA 5 rfl rfl evA
    (by show evA ∈ [evA]; exact List.mem_singleton.mpr rfl)

/-- Counterexample to C5 as stated: a non-2xx HTTP response (status 503)
whose body nevertheless decodes to a JSON document with a `features` array
is processed as a success — the parsed table is non-empty and no error
message is shown, because the code never inspects the status code. -/
theorem get_earthquake_data_non2xx_counterexample :
    (get_earthquake_data
        (HttpOutcome.resp 503 (Except.ok ⟨some [featA]⟩))).1 ≠ [] ∧
    (get_earthquake_data
        (HttpOutcome.resp 503 (Except.ok ⟨some [featA]⟩))).2 = none := by
  constructor
  · show evA :: [] ≠ []
    exact List.cons_ne_nil _ _
  · rfl

/-- C5 (amended): for every outcome on which the guarded fetch raises —
a network error or timeout in the request, a JSON decode failure, or a
missing `features` key — `get_earthquake_data` returns the empty table and
surfaces an error message, and it is a total function, so no fault
propagates; the HTTP status code itself is never consulted. -/
theorem get_earthquake_data_error_empty (o : HttpOutcome)
    (h : raisesException o) :
    (get_earthquake_data o).1 = [] ∧
    (get_earthquake_data o).2 =
      some ("数据获取失败，请检查网络: " ++ errorDetail o) := by
  cases o with
  | requestRaised msg => exact ⟨rfl, rfl⟩
  | resp status body =>
    cases body with
    | error msg => exact ⟨rfl, rfl⟩
    | ok doc =>
      obtain ⟨features⟩ := doc
      cases features with
      | none => exact ⟨rfl, rfl⟩
      | some fs => exact absurd h (by simp [raisesException])

/-- Witness for `get_earthquake_data_error_empty` at a concrete timeout. -/
theorem get_earthquake_data_error_empty_witness :
    (get_earthquake_data (HttpOutcome.requestRaised ("ReadTimeout"))).1 = [] ∧
    (get_earthquake_data (HttpOutcome.requestRaised ("ReadTimeout"))).2 =
      some ("数据获取失败，请检查网络: " ++
        errorDetail (HttpOutcome.requestRaised ("ReadTimeout"))) :=
  get_earthquake_data_error_empty (HttpOutcome.requestRaised ("ReadTimeout"))
    trivial

/-- Summing a pointwise sum of two mapped functions splits. -/
theorem sum_map_add_distrib (f g : ℕ → ℕ) (hs : List ℕ) :
    (hs.map (fun h => f h + g h)).sum = (hs.map f).sum + (hs.map g).sum := by
  induction hs with
  | nil => rfl
  | cons a t ih =>
    simp only [List.map_cons, List.sum_cons, ih]
    omega

/-- The indicator of a value outside the enumerated range sums to zero. -/
theorem sum_map_indicator_zero (a n : ℕ) : n ≤ a →
    ((List.range n).map (fun h => if a = h then 1 else 0)).sum = 0 := by
  induction n with
  | zero => intro _; rfl
  | succ k ih =>
    intro ha
    rw [List.range_succ, List.map_append, List.sum_append]
    have h1 : ((List.range k).map (fun h => if a = h then 1 else 0)).sum = 0 :=
      ih (by omega)
    have hne : a ≠ k := by omega
    simp [h1, hne]

/-- The indicator of a value inside the enumerated range sums to one. -/
theorem sum_map_indicator_one (a n : ℕ) : a < n →
    ((List.range n).map (fun h => if a = h then 1 else 0)).sum = 1 := by
  induction n with
  | zero => intro h; omega
  | succ k ih =>
    intro ha
    rw [List.range_succ, List.map_append, List.sum_append]
    by_cases h : a = k
    · subst h
      rw [sum_map_indicator_zero a a (le_refl a)]
      simp
    · have h1 := ih (by omega)
      simp [h1, h]

/-- When every row's hour lies below `n`, summing the per-hour filter counts
over hours `0, …, n-1` recovers the number of rows. -/
theorem sum_counts_eq_length (df : List Event) (n : ℕ)
    (hn : ∀ e ∈ df, hourOfEvent e < n) :
    ((List.range n).map
      (fun h => (df.filter (fun e => decide (hourOfEvent e = h))).length)).sum
      = df.length := by
  induction df with
  | nil => simp
  | cons e t ih =>
    have ht : ∀ x ∈ t, hourOfEvent x < n :=
      fun x hx => hn x (List.mem_cons_of_mem _ hx)
    have he : hourOfEvent e < n := hn e (List.mem_cons_self e t)
    have hmap : ∀ h : ℕ,
        ((e :: t).filter (fun x => decide (hourOfEvent x = h))).length
          = (if hourOfEvent e = h then 1 else 0)
            + (t.filter (fun x => decide (hourOfEvent x = h))).length := by
      intro h
      rw [List.filter_cons]
      by_cases hh : hourOfEvent e = h
      · simp [hh]
        omega
      · simp [hh]
    have hfun :
        (fun h => ((e :: t).filter (fun x => decide (hourOfEvent x = h))).length)
          = fun h => (if hourOfEvent e = h then 1 else 0)
            + (t.filter (fun x => decide (hourOfEvent x = h))).length :=
      funext hmap
    rw [hfun,
      sum_map_add_distrib (fun h => if hourOfEvent e = h then 1 else 0)
        (fun h => (t.filter (fun x => decide (hourOfEvent x = h))).length),
      sum_map_indicator_one _ _ he, ih ht, List.length_cons]
    omega

/-- Dropping the empty buckets does not change the total of the counts. -/
theorem sum_snd_filterMap_counts (df : List Event) (hs : List ℕ) :
    (((hs.filterMap (fun h =>
        if (df.filter (fun e => decide (hourOfEvent e = h))).length = 0 then none
        else some (h, (df.filter (fun e => decide (hourOfEvent e = h))).length))).map
      Prod.snd).sum)
    = (hs.map (fun h => (df.filter (fun e => decide (hourOfEvent e = h))).length)).sum := by
  induction hs with
  | nil => rfl
  | cons a t ih =>
    by_cases h : (df.filter (fun e => decide (hourOfEvent e = a))).length = 0
    · have hnone :
          (if (df.filter (fun e => decide (hourOfEvent e = a))).length = 0
            then none
            else some (a, (df.filter (fun e => decide (hourOfEvent e = a))).length))
          = (none : Option (ℕ × ℕ)) := if_pos h
      simp only [List.filterMap_cons, hnone, List.map_cons, List.sum_cons, ih]
      omega
    · have hsome :
          (if (df.filter (fun e => decide (hourOfEvent e = a))).length = 0
            then none
            else some (a, (df.filter (fun e => decide (hourOfEvent e = a))).length))
          = some (a, (df.filter (fun e => decide (hourOfEvent e = a))).length) :=
        if_neg h
      simp only [List.filterMap_cons, hsome, List.map_cons, List.sum_cons, ih]

/-- A `filterMap` whose produced pairs keep their source value as first
component preserves strict sortedness of the source list. -/
theorem pairwise_filterMap_fst (g : ℕ → Option (ℕ × ℕ))
    (hfst : ∀ h p, g h = some p → p.1 = h) :
    ∀ hs : List ℕ, List.Pairwise (· < ·) hs →
      List.Pairwise (fun p q : ℕ × ℕ => p.1 < q.1) (hs.filterMap g) := by
  intro hs
  induction hs with
  | nil => intro _; simp
  | cons a t ih =>
    intro hp
    rw [List.pairwise_cons] at hp
    cases hg : g a with
    | none =>
      simp only [List.filterMap_cons, hg]
      exact ih hp.2
    | some p =>
      simp only [List.filterMap_cons, hg]
      rw [List.pairwise_cons]
      refine ⟨?_, ih hp.2⟩
      intro q hq
      rw [List.mem_filterMap] at hq
      obtain ⟨b, hb, hgb⟩ := hq
      have h1 : p.1 = a := hfst a p hg
      have h2 : q.1 = b := hfst b q hgb
      rw [h1, h2]
      exact hp.1 b hb

/-- Every bucket of `hourly_counts` is labelled by its source hour. -/
theorem hourly_counts_fst (df : List Event) (h : ℕ) (p : ℕ × ℕ)
    (hg : (if (df.filter (fun e => decide (hourOfEvent e = h))).length = 0
        then none
        else some (h, (df.filter (fun e => decide (hourOfEvent e = h))).length))
      = some p) :
    p.1 = h := by
  by_cases hz : (df.filter (fun e => decide (hourOfEvent e = h))).length = 0
  · rw [if_pos hz] at hg
    cases hg
  · rw [if_neg hz] at hg
    cases hg
    rfl

/-- Every row of the parsed table has an hour-of-day below 24. -/
theorem hourOf_parsed_lt (fs : List Feature) (e : Event)
    (he : e ∈ parsed_data fs) : hourOfEvent e < 24 := by
  obtain ⟨f, _, m, _, h2⟩ := mem_parsed_data he
  subst h2
  show hourFromTimeString (formatTime f.time) < 24
  rw [formatTime, hour_roundTrip]
  exact Nat.mod_lt _ (by norm_num)

/-- C6: for the table obtained by filtering the parsed feed at any
threshold, the bucket counts of the hour histogram sum to the number of
filtered rows, every bucket's hour lies below 24, and the buckets are listed
in strictly ascending hour order. -/
theorem hourly_counts_spec (fs : List Feature) (T : ℚ) :
    ((hourly_counts (filtered_df (parsed_data fs) T)).map Prod.snd).sum
      = (filtered_df (parsed_data fs) T).length ∧
    (∀ p ∈ hourly_counts (filtered_df (parsed_data fs) T), p.1 < 24) ∧
    List.Pairwise (fun p q : ℕ × ℕ => p.1 < q.1)
      (hourly_counts (filtered_df (parsed_data fs) T)) := by
  have hlt : ∀ e ∈ filtered_df (parsed_data fs) T, hourOfEvent e < 24 := by
    intro e he
    rw [filtered_df, List.mem_filter] at he
    exact hourOf_parsed_lt fs e he.1
  refine ⟨?_, ?_, ?_⟩
  · rw [hourly_counts, sum_snd_filterMap_counts]
    exact sum_counts_eq_length _ 24 hlt
  · intro p hp
    rw [hourly_counts, List.mem_filterMap] at hp
    obtain ⟨h, hh, hghp⟩ := hp
    rw [hourly_counts_fst _ h p hghp]
    exact List.mem_range.mp hh
  · rw [hourly_counts]
    exact pairwise_filterMap_fst _ (hourly_counts_fst _) (List.range 24)
      (List.pairwise_lt_range 24)

/-- C7: every parsed row's `time` field is the fixed-pattern rendering of
its source feature's epoch-millisecond time, and that rendering is at
minute granularity: it is unchanged when the milliseconds are first rounded
down to a whole minute, so seconds and finer precision are truncated away. -/
theorem parsed_data_time_format :
    (∀ (fs : List Feature) (e : Event), e ∈ parsed_data fs →
      ∃ f ∈ fs, e.time = formatTime f.time) ∧
    (∀ t : ℕ, formatTime t = formatTime (60000 * (t / 60000))) := by
  constructor
  · intro fs e he
    obtain ⟨f, hf, m, _, h2⟩ := mem_parsed_data he
    subst h2
    exact ⟨f, hf, rfl⟩
  · intro t
    rw [formatTime, formatTime]
    have h : 60000 * (t / 60000) / 60000 = t / 60000 :=
      Nat.mul_div_cancel_left _ (by norm_num)
    rw [h]

/-- Witness for `parsed_data_time_format`: the row parsed from `featA`
carries the rendering of `featA`'s time. -/
theorem parsed_data_time_format_witness :
    ∃ f ∈ [featA], evA.time = formatTime f.time :=
  parsed_data_time_format.1 [featA] evA
    (by show evA ∈ [evA]; exact List.mem_singleton.mpr rfl)

/-- The dataframe variables of the script after `get_earthquake_data` has
returned: the source table `df`, the view `filtered_df`, and the `datetime`
and `hour` columns that the statistics section later attaches to the
filtered view (a fresh copy produced by boolean-mask indexing, so column
assignment touches only the view). -/
structure DashState where
  df : List Event
  filtered : List Event
  datetimeCol : List String
  hourCol : List ℕ

/-- Line `filtered_df = df[df['mag'] >= min_mag]`: recompute the filtered
view from the source table. -/
def applyFilter (m : ℚ) (s : DashState) : DashState :=
  { s with filtered := filtered_df s.df m }

/-- Line `filtered_df['datetime'] = pd.to_datetime(filtered_df['time'])`:
attach the parsed time column to the filtered copy. -/
def addDatetimeCol (s : DashState) : DashState :=
  { s with datetimeCol := s.filtered.map (fun e => e.time) }

/-- Line `filtered_df['hour'] = filtered_df['datetime'].dt.hour`: attach the
hour column to the filtered copy. -/
def addHourCol (s : DashState) : DashState :=
  { s with hourCol := s.filtered.map hourOfEvent }

/-- The whole downstream pass over the data for one threshold value:
filtering, then the statistics section's two column assignments; the
metrics, table and `hourly_counts` chart only read the state. -/
def runDashboard (m : ℚ) (s : DashState) : DashState :=
  addHourCol (addDatetimeCol (applyFilter m s))

/-- C8: the source table is untouched by the downstream pass: after
filtering and the statistics-section column assignments, `df` still holds
exactly the rows produced at normalization, every record and field intact,
while the filtered view and derived columns are fresh values computed from
it. -/
theorem runDashboard_preserves_df (m : ℚ) (s : DashState) :
    (runDashboard m s).df = s.df ∧
    (runDashboard m s).filtered = filtered_df s.df m ∧
    (runDashboard m s).hourCol = (filtered_df s.df m).map hourOfEvent ∧
    hourly_counts (runDashboard m s).filtered = hourly_counts (filtered_df s.df m) := by
  exact ⟨rfl, rfl, rfl, rfl⟩

/-- C9: the normalizer is exactly an order-preserving `filterMap`: one
output row per feature with a non-null magnitude, in the order of the input
list, and its length is the number of such features — no duplication,
reordering, or further loss. -/
theorem parsed_data_filterMap_eq :
    (∀ fs : List Feature,
      parsed_data fs = fs.filterMap (fun f => f.mag.map (fun m => parseFeature f m))) ∧
    (∀ fs : List Feature,
      (parsed_data fs).length = (fs.filter (fun f => f.mag.isSome)).length) := by
  constructor
  · intro fs
    induction fs with
    | nil => rfl
    | cons f rest ih =>
      cases hm : f.mag with
      | none => simp [parsed_data, hm, List.filterMap_cons, ih]
      | some m => simp [parsed_data, hm, List.filterMap_cons, ih]
  · intro fs
    induction fs with
    | nil => rfl
    | cons f rest ih =>
      cases hm : f.mag with
      | none => simp [parsed_data, hm, List.filter_cons, ih]
      | some m => simp [parsed_data, hm, List.filter_cons, ih]

/-- Witness for `hourly_counts_spec` on a concrete one-feature feed at
threshold 4. -/
theorem hourly_counts_spec_witness :
    ((hourly_counts (filtered_df (parsed_data [featA]) 4)).map Prod.snd).sum
      = (filtered_df (parsed_data [featA]) 4).length :=
  (hourly_counts_spec [featA] 4).1
